import Mathlib

/-!
Verification of the transcript-selection and fallback policy of
`transcribe_youtube.py` against its natural-language specification.

The development shallowly embeds the Python source.  The external caption
resolver (the `youtube_transcript_api` library) is modelled by oracles stored
on each track: `fetchResult` is `some segs` when `transcript.fetch()` would
return `segs` and `none` when it would raise, and `translateEnResult` is
`some segs` when `transcript.translate("en").fetch()` would succeed and
`none` when either call would raise.  Machine floats in segment times are
modelled by naturals; the selection logic never inspects them.
-/

/-- One timed caption unit (`startSeconds`, `durationSeconds`, `text`). -/
structure Segment where
  startSeconds : Nat
  durationSeconds : Nat
  text : String
deriving DecidableEq, Repr

/-- One available caption stream, together with the resolver oracles that
describe what `fetch()` and `translate("en").fetch()` would do for it. -/
structure Track where
  languageCode : String
  isGenerated : Bool
  isTranslatable : Bool
  fetchResult : Option (List Segment)
  translateEnResult : Option (List Segment)
deriving DecidableEq, Repr

/-- Errors that can escape `get_transcript`.  The first three correspond to
the `raise Exception(...)` re-wrappings at the bottom of the Python function;
`stopIteration` is the bare `StopIteration` escaping `next(iter(...))` on an
empty catalog; `fetchFailed` is an uncaught exception from a `fetch()` call
outside the scan loop. -/
inductive GetError where
  | transcriptsDisabled
  | videoUnavailable
  | noTranscriptFound
  | stopIteration
  | fetchFailed
deriving DecidableEq, Repr

/-- Outcome of `ytt_api.list(video_id)`: either a catalog of tracks or one of
the three library errors the Python code catches. -/
inductive ListResult where
  | ok (catalog : List Track)
  | transcriptsDisabled
  | videoUnavailable
  | noTranscriptFound
deriving DecidableEq, Repr

/-- Modelled from the spec: the resolver's
`find_manually_created_transcript(languages)` searches the preference list in
order and, for each language, takes the first catalog track with that exact
`languageCode` and `isGenerated = false`; it reports nothing (the library
raises `NoTranscriptFound`, caught by the Python code) when no language
matches. -/
def find_manually_created_transcript (catalog : List Track) (languages : List String) :
    Option Track :=
  languages.findSome? fun lang =>
    catalog.find? fun t => t.languageCode == lang && !t.isGenerated

/-- Modelled from the spec: the resolver's `find_generated_transcript`, the
same preference-order search restricted to `isGenerated = true` tracks. -/
def find_generated_transcript (catalog : List Track) (languages : List String) :
    Option Track :=
  languages.findSome? fun lang =>
    catalog.find? fun t => t.languageCode == lang && t.isGenerated

/-- `return transcript.fetch(), transcript.language_code, kind` — a `fetch()`
failure here is not caught by any handler in `get_transcript`. -/
def fetch_step (t : Track) (kind : String) :
    Except GetError (List Segment × String × String) :=
  match t.fetchResult with
  | some segs => .ok (segs, t.languageCode, kind)
  | none => .error .fetchFailed

/-- Python's `language_code.startswith("en")`, executed over character
lists so that concrete runs reduce inside the kernel. -/
def startsWithEn (s : String) : Bool :=
  "en".toList.isPrefixOf s.toList

/-- The `for transcript in transcript_list` loop of `get_transcript`
(lines 98–107): one pass in catalog order; a track whose `languageCode`
starts with `"en"` is fetched untranslated, any other track is translated to
English; every exception raised while handling a track is swallowed by
`except Exception: continue` and the loop moves on. -/
def scan_translate_loop : List Track → Option (List Segment × String × String)
  | [] => none
  | t :: rest =>
    if startsWithEn t.languageCode then
      match t.fetchResult with
      | some segs =>
          some (segs, t.languageCode, if t.isGenerated then "auto-generated" else "manual")
      | none => scan_translate_loop rest
    else
      match t.translateEnResult with
      | some segs =>
          some (segs, "en (translated from " ++ t.languageCode ++ ")", "translated")
      | none => scan_translate_loop rest

/-- The body of `get_transcript` after a successful `list(video_id)`:
manual preferred search, then generated preferred search, then the scan
loop, then `next(iter(transcript_list))` as last resort (which raises a bare
`StopIteration` when the catalog is empty). -/
def select_from_catalog (catalog : List Track) (languages : List String) :
    Except GetError (List Segment × String × String) :=
  match find_manually_created_transcript catalog languages with
  | some t => fetch_step t "manual"
  | none =>
    match find_generated_transcript catalog languages with
    | some t => fetch_step t "auto-generated"
    | none =>
      match scan_translate_loop catalog with
      | some r => .ok r
      | none =>
        match catalog with
        | [] => .error .stopIteration
        | t :: _ => fetch_step t (if t.isGenerated then "auto-generated" else "manual")

/-- The default `languages` list installed when the caller passes `None`. -/
def default_languages : List String := ["en", "en-US", "en-GB"]

/-- `get_transcript(video_id, languages)`: dispatch on the outcome of
`ytt_api.list(video_id)`; the three library errors are re-raised as wrapped
exceptions, a catalog runs the selection chain. -/
def get_transcript (lr : ListResult) (languages : List String) :
    Except GetError (List Segment × String × String) :=
  match lr with
  | .ok catalog => select_from_catalog catalog languages
  | .transcriptsDisabled => .error .transcriptsDisabled
  | .videoUnavailable => .error .videoUnavailable
  | .noTranscriptFound => .error .noTranscriptFound

/-! ### URL parsing (`extract_video_id` and its stdlib collaborators) -/

/-- Python's substring test `sub in s`, executed over character lists. -/
def containsSub (s sub : String) : Bool :=
  go sub.toList s.toList
where
  go (sub : List Char) : List Char → Bool
    | [] => sub.isEmpty
    | c :: rest => sub.isPrefixOf (c :: rest) || go sub rest

/-- Split a character list at the first occurrence of `c`: `some (before,
after)` with the delimiter dropped, or `none` when `c` does not occur. -/
def splitFirst (c : Char) : List Char → Option (List Char × List Char)
  | [] => none
  | d :: rest =>
    if d = c then some ([], rest)
    else
      match splitFirst c rest with
      | some (a, b) => some (d :: a, b)
      | none => none

/-- Characters until the first occurrence of any delimiter in `delims`;
returns the taken part and the remainder starting at the delimiter. -/
def takeUntilDelims (delims : List Char) : List Char → List Char × List Char
  | [] => ([], [])
  | c :: rest =>
    if c ∈ delims then ([], c :: rest)
    else
      let (a, b) := takeUntilDelims delims rest
      (c :: a, b)

/-- Accumulator pass for `splitAll`: `acc` holds the (reversed) characters
of the field currently being read. -/
def splitAllAux (c : Char) : List Char → List Char → List (List Char)
  | [], acc => [acc.reverse]
  | d :: rest, acc =>
    if d = c then acc.reverse :: splitAllAux c rest []
    else splitAllAux c rest (d :: acc)

/-- Split a character list on every occurrence of `c` (Python
`s.split(c)`); like Python, an empty input yields one empty field. -/
def splitAll (c : Char) (l : List Char) : List (List Char) :=
  splitAllAux c l []

/-- The fields of `urllib.parse.urlparse` relevant to `extract_video_id`. -/
structure ParseResult where
  scheme : String
  netloc : String
  path : String
  query : String
deriving DecidableEq, Repr

/-- Characters Python's `urlsplit` accepts inside a scheme. -/
def isSchemeChar (c : Char) : Bool :=
  c.isAlphanum || c = '+' || c = '-' || c = '.'

/-- Model of Python's `urllib.parse.urlparse` restricted to the fields the
script reads: an optional `scheme:` is recognised when everything before the
first colon consists of scheme characters; a netloc is present only after
`"//"` and extends to the next `/`, `?` or `#`; the fragment is cut at the
first `#` and the query starts after the first `?`.  Percent-decoding is not
modelled (no claim depends on it). -/
def urlparse (url : String) : ParseResult :=
  let cs := url.toList
  let (schemeCs, restCs) :=
    match splitFirst ':' cs with
    | some (s, r) => if s ≠ [] && s.all isSchemeChar then (s.map Char.toLower, r) else ([], cs)
    | none => ([], cs)
  let (netlocCs, rest2) :=
    match restCs with
    | '/' :: '/' :: r => takeUntilDelims ['/', '?', '#'] r
    | _ => ([], restCs)
  let beforeFrag :=
    match splitFirst '#' rest2 with
    | some (a, _) => a
    | none => rest2
  let (pathCs, queryCs) :=
    match splitFirst '?' beforeFrag with
    | some (a, b) => (a, b)
    | none => (beforeFrag, [])
  ⟨String.mk schemeCs, String.mk netlocCs, String.mk pathCs, String.mk queryCs⟩

/-- `parse_qs(query).get("v", [None])[0]`: the first `name=value` field
(fields split on `&`, name split from value at the first `=`) whose name is
`"v"` and whose value is non-empty; fields without `=` and blank values are
dropped, exactly as `parse_qs` does with its default arguments. -/
def parse_qs_get_v (query : String) : Option String :=
  (splitAll '&' query.toList).findSome? fun field =>
    match splitFirst '=' field with
    | none => none
    | some (name, value) =>
      if name = "v".toList && value ≠ [] then some (String.mk value) else none

/-- Python `path.strip("/")`. -/
def stripSlashes (s : String) : String :=
  String.mk (((s.toList.dropWhile (· = '/')).reverse.dropWhile (· = '/')).reverse)

/-- Python `path.split("/")[-1]`. -/
def lastPathComponent (s : String) : String :=
  String.mk ((splitAll '/' s.toList).getLastD [])

/-- `extract_video_id(youtube_url)` (lines 38–55).  Returns `none` exactly
where the Python function returns `None` (a `/watch` URL without a usable
`v` query parameter). -/
def extract_video_id (youtube_url : String) : Option String :=
  if containsSub youtube_url "youtu.be" then
    some (stripSlashes (urlparse youtube_url).path)
  else
    let parsed := urlparse youtube_url
    if containsSub parsed.netloc "youtube.com" then
      if containsSub parsed.path "/watch" then
        parse_qs_get_v parsed.query
      else if containsSub parsed.path "/embed/" || containsSub parsed.path "/v/" then
        some (lastPathComponent parsed.path)
      else
        some youtube_url
    else
      some youtube_url

/-! ### Timestamp formatting -/

/-- Python's `f"{n:02d}"` for a non-negative integer: decimal rendering,
zero-padded on the left to at least two digits. -/
def pad2 (n : Nat) : String :=
  if n < 10 then "0" ++ toString n else toString n

/-- `format_timestamp(seconds)` (lines 58–65), over natural seconds (the
Python version floors its float argument into integer fields). -/
def format_timestamp (seconds : Nat) : String :=
  let hours := seconds / 3600
  let minutes := (seconds % 3600) / 60
  let secs := seconds % 60
  if hours > 0 then pad2 hours ++ ":" ++ pad2 minutes ++ ":" ++ pad2 secs
  else pad2 minutes ++ ":" ++ pad2 secs

/-! ### `main` -/

/-- Why `main` exited with status 1: a missing/empty video id from the URL,
or an exception escaping `get_transcript` (printed as `Error: ...`). -/
inductive MainFailure where
  | badUrl
  | transcriptError (e : GetError)
deriving DecidableEq, Repr

/-- Outcome of one `main` invocation: `exitWith code reason` models
`sys.exit(code)` after the corresponding report, `success` carries the data
the remaining (out-of-scope) printing and file-writing steps consume. -/
inductive MainOutcome where
  | exitWith (code : Nat) (reason : MainFailure)
  | success (segments : List Segment) (language : String) (kind : String)
deriving DecidableEq, Repr

/-- `main()` (lines 122–143) up to the point where a transcript is in hand:
extract the video id (exit 1 if falsy), call `get_transcript` with the
default languages, exit 1 on any exception. -/
def main_run (youtube_url : String) (lr : ListResult) : MainOutcome :=
  match extract_video_id youtube_url with
  | none => .exitWith 1 .badUrl
  | some vid =>
    if vid = "" then .exitWith 1 .badUrl
    else
      match get_transcript lr default_languages with
      | .error e => .exitWith 1 (.transcriptError e)
      | .ok (segs, language, kind) => .success segs language kind

/-! ### Helper lemmas about the preference-order searches -/

/-- When no catalog track both carries a preferred language code and
satisfies `q`, the preference-order search comes up empty. -/
theorem findSome_lang_none (catalog : List Track) (languages : List String) (q : Track → Bool)
    (h : ∀ lang ∈ languages, ∀ t ∈ catalog, t.languageCode = lang → q t = false) :
    (languages.findSome? fun lang =>
      catalog.find? fun t => t.languageCode == lang && q t) = none := by
  rw [List.findSome?_eq_none_iff]
  intro lang hl
  rw [List.find?_eq_none]
  intro t ht
  simp only [Bool.and_eq_true, beq_iff_eq, not_and]
  intro hcode
  simp [h lang hl t ht hcode]

/-- When `lang0` is the first preferred language for which some catalog track
matches it and satisfies `q`, the preference-order search returns a track
from the catalog with exactly that language code. -/
theorem findSome_lang_first (catalog : List Track) (languages : List String) (q : Track → Bool)
    (lang0 : String)
    (h : languages.find?
        (fun lang => catalog.any fun t => t.languageCode == lang && q t) = some lang0) :
    ∃ t, (languages.findSome? fun lang =>
            catalog.find? fun t => t.languageCode == lang && q t) = some t ∧
         t ∈ catalog ∧ t.languageCode = lang0 ∧ q t = true := by
  induction languages with
  | nil => simp at h
  | cons l ls ih =>
    by_cases hp : (catalog.any fun t => t.languageCode == l && q t) = true
    · rw [List.find?_cons_of_pos
        (p := fun lang => catalog.any fun t => t.languageCode == lang && q t) ls hp] at h
      injection h with h
      subst h
      have hsome : (catalog.find? fun t => t.languageCode == l && q t).isSome := by
        rw [List.find?_isSome]
        obtain ⟨t, ht, hpt⟩ := List.any_eq_true.mp hp
        exact ⟨t, ht, hpt⟩
      obtain ⟨t, hfind⟩ := Option.isSome_iff_exists.mp hsome
      have hpt := List.find?_some hfind
      simp only [Bool.and_eq_true, beq_iff_eq] at hpt
      refine ⟨t, ?_, List.mem_of_find?_eq_some hfind, hpt.1, hpt.2⟩
      rw [List.findSome?_cons, hfind]
    · have hfalse : (catalog.any fun t => t.languageCode == l && q t) = false := by
        simpa using hp
      rw [List.find?_cons_of_neg _ (by simp [hfalse])] at h
      obtain ⟨t, hfind, hmem, hcode, hq⟩ := ih h
      refine ⟨t, ?_, hmem, hcode, hq⟩
      have hall := List.any_eq_false.mp hfalse
      have hnone : (catalog.find? fun t => t.languageCode == l && q t) = none := by
        rw [List.find?_eq_none]
        intro x hx
        exact hall x hx
      rw [List.findSome?_cons, hnone]
      exact hfind

/-- Any track produced by the preference-order search belongs to the
catalog. -/
theorem findSome_lang_mem (catalog : List Track) (languages : List String) (q : Track → Bool)
    (t : Track)
    (h : (languages.findSome? fun lang =>
            catalog.find? fun u => u.languageCode == lang && q u) = some t) :
    t ∈ catalog := by
  obtain ⟨lang, _, hf⟩ := List.exists_of_findSome?_eq_some h
  exact List.mem_of_find?_eq_some hf

/-! ### Helper lemmas about the scan loop -/

/-- A track every handler of which fails is skipped: the scan of `pre ++
rest` where every `pre` track fails (fetch for English-prefixed ones,
translation for the others) equals the scan of `rest`. -/
theorem scan_append_skip (pre rest : List Track)
    (h : ∀ u ∈ pre,
      (startsWithEn u.languageCode = true → u.fetchResult = none) ∧
      (startsWithEn u.languageCode = false → u.translateEnResult = none)) :
    scan_translate_loop (pre ++ rest) = scan_translate_loop rest := by
  induction pre with
  | nil => simp
  | cons u us ih =>
    have hu := h u (by simp)
    have hrest := fun v hv => h v (List.mem_cons_of_mem u hv)
    rw [List.cons_append]
    cases hen : startsWithEn u.languageCode with
    | false =>
      simp only [scan_translate_loop, hen, hu.2 hen, Bool.false_eq_true, if_false]
      exact ih hrest
    | true =>
      simp only [scan_translate_loop, hen, hu.1 hen, if_true]
      exact ih hrest

/-! ### Claims -/

/-- C2: on an empty catalog `get_transcript` does NOT fail with the
`NoTranscriptAvailable` kind the spec promises: the `next(iter(...))` last
resort raises a bare `StopIteration` (surfaced to the user as an empty
`Error:` message), so the code diverges from the claim. -/
theorem c2_empty_catalog_raises_stop_iteration :
    get_transcript (.ok []) default_languages = .error .stopIteration ∧
    GetError.stopIteration ≠ GetError.noTranscriptFound := by
  exact ⟨rfl, by simp⟩

/-- C3: whenever some manual track's language is in the preference list,
selection returns `sourceKind = "manual"` and the resolved language is the
first preference-order language carried by a manual track (`lang0`, pinned
as the first preferred language for which the catalog holds a matching
manual track). -/
theorem c3_manual_preferred (catalog : List Track) (languages : List String) (lang0 : String)
    (hfetch : ∀ t ∈ catalog, t.fetchResult.isSome)
    (hfirst : languages.find?
        (fun lang => catalog.any fun t => t.languageCode == lang && !t.isGenerated)
        = some lang0) :
    ∃ segs, get_transcript (.ok catalog) languages = .ok (segs, lang0, "manual") := by
  obtain ⟨t, hfind, hmem, hcode, _⟩ :=
    findSome_lang_first catalog languages (fun t => !t.isGenerated) lang0 hfirst
  have hman : find_manually_created_transcript catalog languages = some t := hfind
  obtain ⟨segs, hsegs⟩ := Option.isSome_iff_exists.mp (hfetch t hmem)
  refine ⟨segs, ?_⟩
  simp [get_transcript, select_from_catalog, hman, fetch_step, hsegs, hcode]

/-- Witness for C3 (Scenario B): a single manual `"en-US"` track with
preferences `["en", "en-US"]` resolves to `"en-US"`, `manual`. -/
theorem c3_manual_preferred_witness :
    ∃ segs,
      get_transcript (.ok [⟨"en-US", false, true, some [⟨0, 1, "a"⟩], none⟩]) ["en", "en-US"]
        = .ok (segs, "en-US", "manual") :=
  c3_manual_preferred [⟨"en-US", false, true, some [⟨0, 1, "a"⟩], none⟩] ["en", "en-US"]
    "en-US" (by decide) (by decide)

/-- C6: when no manual track carries a preferred language but some generated
track does, selection returns `sourceKind = "auto-generated"` with the first
preference-order language carried by a generated track. -/
theorem c6_auto_preferred (catalog : List Track) (languages : List String) (lang0 : String)
    (hfetch : ∀ t ∈ catalog, t.fetchResult.isSome)
    (hmanualNone : ∀ lang ∈ languages, ∀ t ∈ catalog,
      t.languageCode = lang → t.isGenerated = true)
    (hfirst : languages.find?
        (fun lang => catalog.any fun t => t.languageCode == lang && t.isGenerated)
        = some lang0) :
    ∃ segs, get_transcript (.ok catalog) languages = .ok (segs, lang0, "auto-generated") := by
  have hman : find_manually_created_transcript catalog languages = none :=
    findSome_lang_none catalog languages (fun t => !t.isGenerated)
      (fun lang hl t ht hc => by simp [hmanualNone lang hl t ht hc])
  obtain ⟨t, hfind, hmem, hcode, _⟩ :=
    findSome_lang_first catalog languages (fun t => t.isGenerated) lang0 hfirst
  have hgen : find_generated_transcript catalog languages = some t := hfind
  obtain ⟨segs, hsegs⟩ := Option.isSome_iff_exists.mp (hfetch t hmem)
  refine ⟨segs, ?_⟩
  simp [get_transcript, select_from_catalog, hman, hgen, fetch_step, hsegs, hcode]

/-- Witness for C6: a manual `"es"` track plus a generated `"en"` track with
preferences `["en"]` resolve to `"en"`, `auto-generated`. -/
theorem c6_auto_preferred_witness :
    ∃ segs,
      get_transcript (.ok [⟨"es", false, true, some [⟨0, 1, "a"⟩], none⟩,
                           ⟨"en", true, true, some [⟨0, 1, "b"⟩], none⟩]) ["en"]
        = .ok (segs, "en", "auto-generated") :=
  c6_auto_preferred [⟨"es", false, true, some [⟨0, 1, "a"⟩], none⟩,
                     ⟨"en", true, true, some [⟨0, 1, "b"⟩], none⟩] ["en"]
    "en" (by decide) (by decide) (by decide)

/-- C8: `format_timestamp` renders `MM:SS` below one hour and `HH:MM:SS`
from one hour up, with two-digit zero-padded fields; in particular
65 s ↦ `"01:05"` and 3725 s ↦ `"01:02:05"`. -/
theorem c8_format_timestamp :
    format_timestamp 65 = "01:05" ∧
    format_timestamp 3725 = "01:02:05" ∧
    (∀ s : Nat, s < 3600 → format_timestamp s = pad2 (s / 60) ++ ":" ++ pad2 (s % 60)) ∧
    (∀ s : Nat, 3600 ≤ s →
      format_timestamp s
        = pad2 (s / 3600) ++ ":" ++ pad2 (s % 3600 / 60) ++ ":" ++ pad2 (s % 60)) ∧
    (∀ n : Nat, n < 100 → (pad2 n).length = 2) := by
  refine ⟨by decide, by decide, ?_, ?_, by decide⟩
  · intro s hs
    have h0 : s / 3600 = 0 := Nat.div_eq_of_lt hs
    have h1 : s % 3600 = s := Nat.mod_eq_of_lt hs
    simp [format_timestamp, h0, h1]
  · intro s hs
    have h0 : 0 < s / 3600 := Nat.div_pos hs (by norm_num)
    simp [format_timestamp, h0]

/-- Witness for C8: the general branch facts instantiated at the spec's two
examples. -/
theorem c8_format_timestamp_witness :
    format_timestamp 65 = "01:05" ∧
    format_timestamp 65 = pad2 (65 / 60) ++ ":" ++ pad2 (65 % 60) ∧
    format_timestamp 3725 = pad2 (3725 / 3600) ++ ":" ++ pad2 (3725 % 3600 / 60) ++ ":"
      ++ pad2 (3725 % 60) :=
  ⟨c8_format_timestamp.1,
   c8_format_timestamp.2.2.1 65 (by norm_num),
   c8_format_timestamp.2.2.2.1 3725 (by norm_num)⟩

/-- C1 counterexample: the scan is a single interleaved pass, not an
English-language pass followed by a translation pass.  With catalog
`[es (translatable), en-CA]` and the default preferences (neither code is
in the list), the earlier `"es"` track is translated even though the later
`"en-CA"` track is English-prefixed; the claim predicted the untranslated
`en-CA` result. -/
theorem c1_counterexample :
    get_transcript (.ok [⟨"es", true, true, some [⟨0, 1, "a"⟩], some [⟨0, 1, "t"⟩]⟩,
                         ⟨"en-CA", true, true, some [⟨0, 1, "b"⟩], none⟩]) default_languages
      = .ok ([⟨0, 1, "t"⟩], "en (translated from es)", "translated") ∧
    (([⟨0, 1, "t"⟩], "en (translated from es)", "translated") :
        List Segment × String × String)
      ≠ ([⟨0, 1, "b"⟩], "en-CA", "auto-generated") := by
  exact ⟨rfl, by decide⟩

/-- C1 amended: the catalog is scanned once, in order; the first track that
is either English-prefixed (and fetchable) or successfully translatable is
taken.  When no preferred language matches and the first such track `t` is
English-prefixed, `t` is returned untranslated with `sourceKind` derived
from its `isGenerated` flag — but an earlier successfully-translating
non-English track takes priority over a later English-prefixed one. -/
theorem c1_en_scan_single_pass (catalog : List Track) (languages : List String)
    (pre post : List Track) (t : Track) (segs : List Segment)
    (hcat : catalog = pre ++ t :: post)
    (hnone : ∀ lang ∈ languages, ∀ u ∈ catalog, u.languageCode ≠ lang)
    (hpre : ∀ u ∈ pre,
      (startsWithEn u.languageCode = true → u.fetchResult = none) ∧
      (startsWithEn u.languageCode = false → u.translateEnResult = none))
    (hen : startsWithEn t.languageCode = true)
    (hf : t.fetchResult = some segs) :
    get_transcript (.ok catalog) languages
      = .ok (segs, t.languageCode,
             if t.isGenerated then "auto-generated" else "manual") := by
  subst hcat
  have hman : find_manually_created_transcript (pre ++ t :: post) languages = none :=
    findSome_lang_none _ languages _
      (fun lang hl u hu hc => absurd hc (hnone lang hl u hu))
  have hgen : find_generated_transcript (pre ++ t :: post) languages = none :=
    findSome_lang_none _ languages _
      (fun lang hl u hu hc => absurd hc (hnone lang hl u hu))
  have hscan : scan_translate_loop (pre ++ t :: post)
      = some (segs, t.languageCode,
              if t.isGenerated then "auto-generated" else "manual") := by
    rw [scan_append_skip pre _ hpre]
    simp [scan_translate_loop, hen, hf]
  simp [get_transcript, select_from_catalog, hman, hgen, hscan]

/-- Witness for the amended C1: a failing `"de"` track followed by an
English-prefixed `"en-CA"` track, with no preferred-language match. -/
theorem c1_en_scan_single_pass_witness :
    get_transcript (.ok [⟨"de", false, true, some [⟨0, 1, "a"⟩], none⟩,
                         ⟨"en-CA", true, true, some [⟨0, 1, "b"⟩], none⟩]) ["fr"]
      = .ok ([⟨0, 1, "b"⟩], "en-CA", "auto-generated") :=
  c1_en_scan_single_pass _ ["fr"]
    [⟨"de", false, true, some [⟨0, 1, "a"⟩], none⟩]
    [] ⟨"en-CA", true, true, some [⟨0, 1, "b"⟩], none⟩ [⟨0, 1, "b"⟩]
    rfl (by decide) (by decide) (by decide) rfl

/-- C4: with no preferred-language match and no English-prefixed track,
failing translations are skipped and the first track in catalog order whose
translation succeeds is returned as
`"en (translated from " ++ originalLanguageCode ++ ")"`, `translated`. -/
theorem c4_translate_skip_failures (catalog : List Track) (languages : List String)
    (pre post : List Track) (t : Track) (segs : List Segment)
    (hcat : catalog = pre ++ t :: post)
    (hnone : ∀ lang ∈ languages, ∀ u ∈ catalog, u.languageCode ≠ lang)
    (hnoen : ∀ u ∈ catalog, startsWithEn u.languageCode = false)
    (hpre : ∀ u ∈ pre, u.translateEnResult = none)
    (ht : t.translateEnResult = some segs) :
    get_transcript (.ok catalog) languages
      = .ok (segs, "en (translated from " ++ t.languageCode ++ ")", "translated") := by
  subst hcat
  have hman : find_manually_created_transcript (pre ++ t :: post) languages = none :=
    findSome_lang_none _ languages _
      (fun lang hl u hu hc => absurd hc (hnone lang hl u hu))
  have hgen : find_generated_transcript (pre ++ t :: post) languages = none :=
    findSome_lang_none _ languages _
      (fun lang hl u hu hc => absurd hc (hnone lang hl u hu))
  have hpre' : ∀ u ∈ pre,
      (startsWithEn u.languageCode = true → u.fetchResult = none) ∧
      (startsWithEn u.languageCode = false → u.translateEnResult = none) := by
    intro u hu
    refine ⟨fun henu => ?_, fun _ => hpre u hu⟩
    have := hnoen u (List.mem_append_left _ hu)
    rw [henu] at this
    cases this
  have htf : startsWithEn t.languageCode = false :=
    hnoen t (List.mem_append_right _ (List.mem_cons_self t post))
  have hscan : scan_translate_loop (pre ++ t :: post)
      = some (segs, "en (translated from " ++ t.languageCode ++ ")", "translated") := by
    rw [scan_append_skip pre _ hpre']
    simp [scan_translate_loop, htf, ht]
  simp [get_transcript, select_from_catalog, hman, hgen, hscan]

/-- Witness for C4: `"de"` fails translation, `"es"` translates; the `"es"`
result is returned, skipping the failure. -/
theorem c4_translate_skip_failures_witness :
    get_transcript (.ok [⟨"de", false, true, some [⟨0, 1, "a"⟩], none⟩,
                         ⟨"es", false, true, some [⟨0, 1, "a"⟩], some [⟨0, 1, "t"⟩]⟩]) ["fr"]
      = .ok ([⟨0, 1, "t"⟩], "en (translated from es)", "translated") :=
  c4_translate_skip_failures _ ["fr"]
    [⟨"de", false, true, some [⟨0, 1, "a"⟩], none⟩]
    [] ⟨"es", false, true, some [⟨0, 1, "a"⟩], some [⟨0, 1, "t"⟩]⟩ [⟨0, 1, "t"⟩]
    rfl (by decide) (by decide) (by decide) rfl

/-- C5 counterexample: with catalog `[fr (translation fails), en]` and no
preferred-language match, every translation attempt fails and the catalog is
non-empty, yet the returned track is the later English-prefixed `"en"`
track, not the first catalog-order track `"fr"` the claim promises. -/
theorem c5_counterexample :
    get_transcript (.ok [⟨"fr", true, true, some [⟨0, 1, "a"⟩], none⟩,
                         ⟨"en", false, true, some [⟨0, 1, "b"⟩], none⟩]) ["de"]
      = .ok ([⟨0, 1, "b"⟩], "en", "manual") ∧
    (([⟨0, 1, "b"⟩], "en", "manual") : List Segment × String × String)
      ≠ ([⟨0, 1, "a"⟩], "fr", "auto-generated") := by
  exact ⟨rfl, by decide⟩

/-- C5 amended: when additionally no preferred language matches and no track
is English-prefixed, a catalog all of whose translations fail falls through
to the last resort: the first catalog-order track, untranslated, with
`sourceKind` from its `isGenerated` flag and its own language code. -/
theorem c5_last_resort (catalog : List Track) (languages : List String)
    (t : Track) (rest : List Track) (segs : List Segment)
    (hcat : catalog = t :: rest)
    (hnone : ∀ lang ∈ languages, ∀ u ∈ catalog, u.languageCode ≠ lang)
    (hnoen : ∀ u ∈ catalog, startsWithEn u.languageCode = false)
    (htr : ∀ u ∈ catalog, u.translateEnResult = none)
    (hf : t.fetchResult = some segs) :
    get_transcript (.ok catalog) languages
      = .ok (segs, t.languageCode,
             if t.isGenerated then "auto-generated" else "manual") := by
  subst hcat
  have hman : find_manually_created_transcript (t :: rest) languages = none :=
    findSome_lang_none _ languages _
      (fun lang hl u hu hc => absurd hc (hnone lang hl u hu))
  have hgen : find_generated_transcript (t :: rest) languages = none :=
    findSome_lang_none _ languages _
      (fun lang hl u hu hc => absurd hc (hnone lang hl u hu))
  have hscan : scan_translate_loop (t :: rest) = none := by
    have hskip : ∀ u ∈ t :: rest,
        (startsWithEn u.languageCode = true → u.fetchResult = none) ∧
        (startsWithEn u.languageCode = false → u.translateEnResult = none) := by
      intro u hu
      refine ⟨fun henu => ?_, fun _ => htr u hu⟩
      have := hnoen u hu
      rw [henu] at this
      cases this
    have := scan_append_skip (t :: rest) [] hskip
    simpa using this
  simp [get_transcript, select_from_catalog, hman, hgen, hscan, fetch_step, hf]

/-- Witness for the amended C5 (Scenario D): a lone generated `"fr"` track
whose translation fails resolves to `("fr", auto-generated)`. -/
theorem c5_last_resort_witness :
    get_transcript (.ok [⟨"fr", true, true, some [⟨0, 1, "a"⟩], none⟩]) default_languages
      = .ok ([⟨0, 1, "a"⟩], "fr", "auto-generated") :=
  c5_last_resort _ default_languages ⟨"fr", true, true, some [⟨0, 1, "a"⟩], none⟩ []
    [⟨0, 1, "a"⟩] rfl (by decide) (by decide) (by decide) rfl

/-- C7: each of the three resolver errors is terminal — `main` reports it
and exits with status 1 (non-zero) — and a translation failure never
surfaces: a non-empty catalog whose fetches succeed always yields a
successful selection, however the per-track translation oracles behave. -/
theorem c7_terminal_errors (url vid : String)
    (hext : extract_video_id url = some vid) (hv : vid ≠ "") :
    main_run url .transcriptsDisabled = .exitWith 1 (.transcriptError .transcriptsDisabled) ∧
    main_run url .videoUnavailable = .exitWith 1 (.transcriptError .videoUnavailable) ∧
    main_run url .noTranscriptFound = .exitWith 1 (.transcriptError .noTranscriptFound) ∧
    (1 : Nat) ≠ 0 ∧
    (∀ (catalog : List Track) (languages : List String), catalog ≠ [] →
      (∀ t ∈ catalog, t.fetchResult.isSome) →
      ∃ r, get_transcript (.ok catalog) languages = Except.ok r) := by
  refine ⟨?_, ?_, ?_, by norm_num, ?_⟩
  · simp [main_run, hext, hv, get_transcript]
  · simp [main_run, hext, hv, get_transcript]
  · simp [main_run, hext, hv, get_transcript]
  · intro catalog languages hne hfetch
    cases hman : find_manually_created_transcript catalog languages with
    | some t =>
      have hmem : t ∈ catalog :=
        findSome_lang_mem catalog languages (fun u => !u.isGenerated) t hman
      obtain ⟨segs, hsegs⟩ := Option.isSome_iff_exists.mp (hfetch t hmem)
      refine ⟨(segs, t.languageCode, "manual"), ?_⟩
      simp [get_transcript, select_from_catalog, hman, fetch_step, hsegs]
    | none =>
      cases hgen : find_generated_transcript catalog languages with
      | some t =>
        have hmem : t ∈ catalog :=
          findSome_lang_mem catalog languages (fun u => u.isGenerated) t hgen
        obtain ⟨segs, hsegs⟩ := Option.isSome_iff_exists.mp (hfetch t hmem)
        refine ⟨(segs, t.languageCode, "auto-generated"), ?_⟩
        simp [get_transcript, select_from_catalog, hman, hgen, fetch_step, hsegs]
      | none =>
        cases hscan : scan_translate_loop catalog with
        | some r =>
          exact ⟨r, by simp [get_transcript, select_from_catalog, hman, hgen, hscan]⟩
        | none =>
          cases catalog with
          | nil => exact absurd rfl hne
          | cons t rest =>
            obtain ⟨segs, hsegs⟩ :=
              Option.isSome_iff_exists.mp (hfetch t (List.mem_cons_self t rest))
            refine ⟨(segs, t.languageCode,
              if t.isGenerated then "auto-generated" else "manual"), ?_⟩
            simp [get_transcript, select_from_catalog, hman, hgen, hscan,
              fetch_step, hsegs]

/-- Witness for C7 at a bare video id and the disabled-captions error. -/
theorem c7_terminal_errors_witness :
    main_run "dQw4w9WgXcQ" .transcriptsDisabled
      = .exitWith 1 (.transcriptError .transcriptsDisabled) :=
  (c7_terminal_errors "dQw4w9WgXcQ" "dQw4w9WgXcQ" (by decide) (by decide)).1

/-- C9: inside the catalog scan every per-track failure is swallowed and the
scan moves on — an English-prefixed track whose fetch fails is skipped just
like a failed translation, as the concrete run shows: the unfetchable
`"en-CA"` track is passed over in favor of translating the later `"es"`
track. -/
theorem c9_scan_swallows_failures (t : Track) (rest : List Track) :
    (startsWithEn t.languageCode = true → t.fetchResult = none →
      scan_translate_loop (t :: rest) = scan_translate_loop rest) ∧
    (startsWithEn t.languageCode = false → t.translateEnResult = none →
      scan_translate_loop (t :: rest) = scan_translate_loop rest) ∧
    get_transcript (.ok [⟨"en-CA", true, true, none, none⟩,
                         ⟨"es", true, true, some [⟨0, 1, "a"⟩], some [⟨0, 1, "t"⟩]⟩])
        default_languages
      = .ok ([⟨0, 1, "t"⟩], "en (translated from es)", "translated") := by
  refine ⟨fun hen hf => ?_, fun hen ht => ?_, rfl⟩
  · simp [scan_translate_loop, hen, hf]
  · simp [scan_translate_loop, hen, ht]

/-- Witness for C9: an unfetchable English-prefixed track is skipped. -/
theorem c9_scan_swallows_failures_witness :
    scan_translate_loop [⟨"en-CA", true, true, none, none⟩] = scan_translate_loop [] :=
  (c9_scan_swallows_failures ⟨"en-CA", true, true, none, none⟩ []).1 (by decide) rfl

/-- C10: `extract_video_id` is the identity on inputs that neither contain
`"youtu.be"` nor parse to a netloc containing `"youtube.com"` (bare video
ids), and returns `none` (Python `None`) for a `youtube.com` `/watch` URL
whose query has no usable `v` parameter. -/
theorem c10_extract_video_id (url : String) :
    (containsSub url "youtu.be" = false →
      containsSub (urlparse url).netloc "youtube.com" = false →
      extract_video_id url = some url) ∧
    (containsSub url "youtu.be" = false →
      containsSub (urlparse url).netloc "youtube.com" = true →
      containsSub (urlparse url).path "/watch" = true →
      parse_qs_get_v (urlparse url).query = none →
      extract_video_id url = none) := by
  constructor
  · intro h1 h2
    simp [extract_video_id, h1, h2]
  · intro h1 h2 h3 h4
    simp [extract_video_id, h1, h2, h3, h4]

/-- Witness for C10: a bare id is returned unchanged; a `/watch` URL with
only a `list` parameter yields `none`. -/
theorem c10_extract_video_id_witness :
    extract_video_id "dQw4w9WgXcQ" = some "dQw4w9WgXcQ" ∧
    extract_video_id "https://www.youtube.com/watch?list=PL123" = none :=
  ⟨(c10_extract_video_id "dQw4w9WgXcQ").1 (by decide) (by decide),
   (c10_extract_video_id "https://www.youtube.com/watch?list=PL123").2
     (by decide) (by decide) (by decide) (by decide)⟩
